import Mathlib

/-!
Shallow embedding of the tgCatalog bot core (files `core_helpers.py`,
`db_layer.py`, `admin_bot.py`) and proofs about the properties its
design document states.

The relational store is modelled as Lean lists of records; the SQLite
statements the code issues are modelled by list operations that follow
the statements literally (including the `ON DELETE CASCADE` actions of
the schema created by `db_layer.init_db`, which run because `connect()`
sets `PRAGMA foreign_keys=ON`).  The messaging transport is an external
collaborator: a sent message is represented by the message id the
transport returned, and best-effort deletes are represented by the list
of delete calls attempted.
-/

namespace TgCatalog

/-! ## Scoped screen manager (`core_helpers.py`)

The `messages` table rows relevant to tracking: `(chat_id, message_id,
scope)`.  `db_exec`/`db_query` act on this list. -/

structure MsgRec where
  chatId : Int
  messageId : Int
  scope : String
deriving DecidableEq, Repr

/-- The message-tracking table. -/
abbrev MsgDB := List MsgRec

/-- `SELECT message_id FROM messages WHERE chat_id=? AND scope=?` -/
def scopeIds (db : MsgDB) (chat : Int) (scope : String) : List Int :=
  (db.filter (fun r => r.chatId = chat && r.scope = scope)).map (·.messageId)

/-- `delete_scope` (core_helpers.py lines 59-78): queries the scope's
recorded message ids, attempts a transport delete for each (failures
swallowed), then `DELETE FROM messages WHERE chat_id=? AND scope=?`.
Returns the new table and the list of transport delete calls made. -/
def delete_scope (db : MsgDB) (chat : Int) (scope : String) : MsgDB × List Int :=
  (db.filter (fun r => !(r.chatId = chat && r.scope = scope)),
   scopeIds db chat scope)

/-- `remember` (core_helpers.py lines 51-56):
`INSERT INTO messages(chat_id,message_id,scope) VALUES(?,?,?)`. -/
def remember (db : MsgDB) (chat : Int) (mid : Int) (scope : String) : MsgDB :=
  db ++ [⟨chat, mid, scope⟩]

/-- `replace_menu` (core_helpers.py lines 96-113): `delete_scope`, then
send the new message (the transport returns `mid`), then `remember` it.
`mid` is the id the successful send returned. -/
def replace_menu (db : MsgDB) (chat : Int) (scope : String) (mid : Int) : MsgDB :=
  remember (delete_scope db chat scope).1 chat mid scope

/-! ## Link buttons (`core_helpers.load_links`, `admin_bot` links handlers)

`load_links` reads the `links_json` setting, parses it with
`json.loads` and normalizes.  JSON parsing itself is external; a parsed
value is represented by `Json` and a failed parse by `none`.  Numbers
are modelled as integers (no claim involves floats). -/

inductive Json where
  | null : Json
  | bool : Bool → Json
  | num : Int → Json
  | str : String → Json
  | arr : List Json → Json
  | obj : List (String × Json) → Json
deriving Repr

/-- Python truthiness of a parsed JSON value. -/
def pyTruthy : Json → Bool
  | .null => false
  | .bool b => b
  | .num n => n != 0
  | .str s => !s.data.isEmpty
  | .arr xs => !xs.isEmpty
  | .obj kvs => !kvs.isEmpty

/-- Python `str.strip()`: drop whitespace from both ends. -/
def pyStrip (s : String) : String :=
  ⟨((s.data.dropWhile Char.isWhitespace).reverse.dropWhile
      Char.isWhitespace).reverse⟩

/-- A non-empty all-digit character list read as a decimal number. -/
def digitsToNat (l : List Char) : Option Nat :=
  if l.isEmpty || !l.all Char.isDigit then none
  else some (l.foldl (fun acc c => acc * 10 + (c.toNat - 48)) 0)

/-- Python `int(...)` applied to a decimal string literal (optional
sign, digits, surrounding whitespace), as `int` accepts. -/
def parseIntLit (s : String) : Option Int :=
  let t := (pyStrip s).data
  let signed :=
    match t with
    | c :: rest =>
      if c = '-' then (true, rest)
      else if c = '+' then (false, rest) else (false, t)
    | [] => (false, t)
  match digitsToNat signed.2 with
  | some n => some (if signed.1 then -(n : Int) else (n : Int))
  | none => none

/-- Python `int(x)` on a parsed JSON value: ints pass through, bools
coerce, numeric strings parse, everything else raises. -/
def pyInt : Json → Except String Int
  | .num n => .ok n
  | .bool b => .ok (if b then 1 else 0)
  | .str s =>
    match parseIntLit s with
    | some n => .ok n
    | none => .error "ValueError"
  | .null => .error "TypeError"
  | .arr _ => .error "TypeError"
  | .obj _ => .error "TypeError"

mutual

/-- Python `repr` of a parsed JSON value (used by `str` on non-strings). -/
def pyRepr : Json → String
  | .null => "None"
  | .bool b => if b then "True" else "False"
  | .num n => toString n
  | .str s => "\x27" ++ s ++ "\x27"
  | .arr xs => "[" ++ pyReprList xs ++ "]"
  | .obj kvs => "\x7b" ++ pyReprObj kvs ++ "\x7d"

def pyReprList : List Json → String
  | [] => ""
  | [x] => pyRepr x
  | x :: xs => pyRepr x ++ ", " ++ pyReprList xs

def pyReprObj : List (String × Json) → String
  | [] => ""
  | [(k, v)] => "\x27" ++ k ++ "\x27: " ++ pyRepr v
  | (k, v) :: kvs => "\x27" ++ k ++ "\x27: " ++ pyRepr v ++ ", " ++ pyReprObj kvs

end

/-- Python `str(x)`: identity on strings, `repr`-style otherwise. -/
def pyStr : Json → String
  | .str s => s
  | j => pyRepr j

/-- `dict.get(key, default)`; JSON objects keep the last binding of a
repeated key, as `json.loads` does. -/
def objGet (kvs : List (String × Json)) (k : String) (dflt : Json) : Json :=
  match kvs.reverse.find? (fun kv => kv.1 == k) with
  | some kv => kv.2
  | none => dflt

/-- One normalized entry of the link list. -/
structure LinkEntry where
  text : String
  url : String
  active : Int
deriving DecidableEq, Repr

/-- Normalization of one element of the parsed array inside
`load_links` (core_helpers.py lines 190-198): non-dicts are skipped,
`text`/`url` are stringified and stripped and must be non-empty, then
`active = 1 if int(x.get("active", 1) or 0) else 0` — which raises when
the `active` value is truthy but not convertible by `int`. -/
def normLink (x : Json) : Except String (Option LinkEntry) :=
  match x with
  | .obj kvs =>
    let text := pyStrip (pyStr (objGet kvs "text" (.str "")))
    let url := pyStrip (pyStr (objGet kvs "url" (.str "")))
    if text = "" || url = "" then .ok none
    else
      let v := objGet kvs "active" (.num 1)
      let arg := if pyTruthy v then v else .num 0
      match pyInt arg with
      | .ok i => .ok (some ⟨text, url, if i = 0 then 0 else 1⟩)
      | .error e => .error e
  | _ => .ok none

/-- The normalization loop of `load_links` over the parsed array: a
raising entry aborts, a skipped entry contributes nothing. -/
def collectLinks : List Json → Except String (List LinkEntry)
  | [] => .ok []
  | x :: xs =>
    match normLink x with
    | .error e => .error e
    | .ok none => collectLinks xs
    | .ok (some l) =>
      match collectLinks xs with
      | .error e => .error e
      | .ok t => .ok (l :: t)

/-- `load_links` (core_helpers.py lines 181-199), applied to the result
of `json.loads` on the stored `links_json` value: `none` stands for a
parse failure (caught, yielding `[]`); a non-array parse yields `[]`;
otherwise the array is normalized (which can raise, see `normLink`). -/
def load_links (parsed : Option Json) : Except String (List LinkEntry) :=
  match parsed with
  | none => .ok []
  | some (.arr xs) => collectLinks xs
  | some _ => .ok []

instance : Inhabited LinkEntry := ⟨⟨"", "", 0⟩⟩

/-- The `adm:links:dn:` handler body (admin_bot.py lines 1716-1725) on
the loaded list: `if 0 <= i < len(arr) - 1`, swap entries `i` and
`i+1`.  Indices in tokens are the non-negative positions the keyboard
rendered, so `i : Nat`. -/
def links_dn (arr : List LinkEntry) (i : Nat) : List LinkEntry :=
  if i + 1 < arr.length then
    arr.take i ++ [arr.getD (i + 1) default, arr.getD i default]
      ++ arr.drop (i + 2)
  else arr

/-! ## Identity and permissions (`core_helpers.py` lines 118-156)

`ADMIN_IDS` is the configured owner id set; `editors` is the `editors`
table. -/

structure EditorRow where
  userId : Int
  username : String
  isActive : Int
  permCats : Int
  permProds : Int
  permPhotos : Int
  permLinks : Int
  permWelcome : Int
  permReserve : Int
deriving DecidableEq, Repr

/-- `is_admin`: membership in the static `ADMIN_IDS` set. -/
def is_admin (adminIds : List Int) (uid : Int) : Bool :=
  adminIds.contains uid

/-- `_editor_row`: `SELECT * FROM editors WHERE user_id=?`, first row
or `None`. -/
def editorRow (editors : List EditorRow) (uid : Int) : Option EditorRow :=
  (editors.filter (fun e => e.userId == uid)).head?

/-- The `col_map` lookup of `has_perm`: maps a capability name to the
row's flag column, `None` for an unknown name. -/
def permCol (row : EditorRow) : String → Option Int
  | "cats" => some row.permCats
  | "prods" => some row.permProds
  | "photos" => some row.permPhotos
  | "links" => some row.permLinks
  | "welcome" => some row.permWelcome
  | "reserve" => some row.permReserve
  | _ => none

/-- `has_perm` (core_helpers.py lines 127-144). -/
def has_perm (adminIds : List Int) (editors : List EditorRow)
    (uid : Int) (perm : String) : Bool :=
  if is_admin adminIds uid then true
  else match editorRow editors uid with
    | none => false
    | some row =>
      if row.isActive == 0 then false
      else match permCol row perm with
        | none => false
        | some col => col != 0

/-- `require_staff` (core_helpers.py lines 147-156): owner, or an
active editor row. -/
def require_staff (adminIds : List Int) (editors : List EditorRow)
    (uid : Int) : Bool :=
  if is_admin adminIds uid then true
  else match editorRow editors uid with
    | none => false
    | some row => row.isActive != 0

/-! ## Catalog store (`db_layer.init_db` schema)

Tables as lists of records.  `connect()` sets `PRAGMA
foreign_keys=ON`, so the schema's `ON DELETE CASCADE` clauses are live:
`products.category_id` references `categories(id)` CASCADE,
`product_categories`, `photos` and `product_variants` reference
`products(id)` CASCADE, `product_categories.category_id` references
`categories(id)` CASCADE. -/

structure Category where
  id : Int
  name : String
  isActive : Int
deriving DecidableEq, Repr

structure Product where
  id : Int
  categoryId : Option Int
  name : String
  description : Option String
  price : Int
  stock : Int
  isActive : Int
  createdAt : String
deriving DecidableEq, Repr

structure Membership where
  productId : Int
  categoryId : Int
deriving DecidableEq, Repr

structure Variant where
  id : Int
  productId : Int
  name : String
  stock : Int
deriving DecidableEq, Repr

structure Photo where
  id : Int
  productId : Int
  fileId : String
deriving DecidableEq, Repr

structure DB where
  categories : List Category
  products : List Product
  productCategories : List Membership
  productVariants : List Variant
  photos : List Photo
deriving DecidableEq, Repr

/-- `DELETE FROM categories WHERE id=?` under `foreign_keys=ON`: the
category row goes, every product whose `category_id` column references
it is cascade-deleted, and rows referencing a cascade-deleted product
(memberships, variants, photos) cascade in turn; membership rows whose
`category_id` references the category also cascade. -/
def sqliteDeleteCategory (db : DB) (cid : Int) : DB :=
  let dead := fun (p : Product) => p.categoryId == some cid
  let deadId := fun (i : Int) => db.products.any (fun p => dead p && p.id == i)
  { categories := db.categories.filter (fun c => c.id != cid)
    products := db.products.filter (fun p => !dead p)
    productCategories := db.productCategories.filter
      (fun m => m.categoryId != cid && !deadId m.productId)
    productVariants := db.productVariants.filter (fun v => !deadId v.productId)
    photos := db.photos.filter (fun ph => !deadId ph.productId) }

/-- `DELETE FROM products WHERE id=?` under `foreign_keys=ON`:
memberships, variants and photos of a deleted product cascade. -/
def sqliteDeleteProduct (db : DB) (pid : Int) : DB :=
  let deadId := fun (i : Int) => db.products.any (fun p => p.id == pid && p.id == i)
  { categories := db.categories
    products := db.products.filter (fun p => p.id != pid)
    productCategories := db.productCategories.filter (fun m => !deadId m.productId)
    productVariants := db.productVariants.filter (fun v => !deadId v.productId)
    photos := db.photos.filter (fun ph => !deadId ph.productId) }

/-- The `adm:cat:delete:ok:` confirmation handler body (admin_bot.py
lines 1268-1275): `DELETE FROM product_categories WHERE category_id=?`
then `DELETE FROM categories WHERE id=?` (with its cascades). -/
def adm_cat_delete_ok (db : DB) (cid : Int) : DB :=
  let db1 := { db with
    productCategories := db.productCategories.filter (fun m => m.categoryId != cid) }
  sqliteDeleteCategory db1 cid

/-! ## Pagination (`kb_cats`, `show_shop_grid`) -/

/-- Python `l[start : start+per]` for non-negative `start`. -/
def pySlice {α : Type} (l : List α) (start per : Nat) : List α :=
  (l.drop start).take per

/-- What a paginated keyboard renders: the ids of the listed entities
in order, and whether previous/next controls are attached. -/
structure PageNav where
  items : List Int
  hasPrev : Bool
  hasNext : Bool
deriving DecidableEq, Repr

/-- `kb_cats` (admin_bot.py lines 121-143): active categories, slice
`[page*per : page*per+per]` with no clamping of `page`; the previous
control appears iff `start > 0` and the next iff `start + per <
len(cats)`.  Token page indices are the non-negative integers the
keyboard itself rendered. -/
def kb_cats (cats : List Category) (page : Nat) (per : Nat := 8) : PageNav :=
  let act := cats.filter (fun c => c.isActive == 1)
  let start := page * per
  { items := (pySlice act start per).map (·.id)
    hasPrev := decide (start > 0)
    hasNext := decide (start + per < act.length) }

/-- `kb_adm_cats` (admin_bot.py lines 170-190): same raw slicing over
all categories with `per=12`. -/
def kb_adm_cats (cats : List Category) (page : Nat) (per : Nat := 12) : PageNav :=
  let start := page * per
  { items := (pySlice cats start per).map (·.id)
    hasPrev := decide (start > 0)
    hasNext := decide (start + per < cats.length) }

/-- `kb_adm_prods_list` (admin_bot.py lines 246-274): raw slicing over
all products with `per=10`. -/
def kb_adm_prods_list (prods : List Product) (page : Nat) (per : Nat := 10) : PageNav :=
  let start := page * per
  { items := (pySlice prods start per).map (·.id)
    hasPrev := decide (start > 0)
    hasNext := decide (start + per < prods.length) }

/-- The pagination core of `show_shop_grid` (admin_bot.py lines
1008-1080) applied to the active products of the category: an empty
list short-circuits to a no-item screen without nav controls;
otherwise the page is clamped into `[0, (total-1)//4]`, the clamped
slice is rendered, the previous control appears iff `page > 0` and the
next iff `page < max_page` after clamping. -/
def show_shop_grid (prods : List Product) (page : Int) : PageNav :=
  if prods.length = 0 then { items := [], hasPrev := false, hasNext := false }
  else
    let maxPage : Int := ((prods.length : Int) - 1) / 4
    let p1 := if page < 0 then 0 else page
    let p := if p1 > maxPage then maxPage else p1
    { items := (pySlice prods (p * 4).toNat 4).map (·.id)
      hasPrev := decide (p > 0)
      hasNext := decide (p < maxPage) }

/-- Modelled from the spec (design section 4.3), for comparison with
the code: clamp the requested index into `[0, ceil(total/size)-1]` (0
when empty) and render the slice `[page*size, page*size+size)`. -/
def specPaginate {α : Type} (l : List α) (page size : Nat) : List α :=
  let total := l.length
  let maxPage := if total = 0 then 0 else (total + size - 1) / size - 1
  let p := min page maxPage
  (l.drop (p * size)).take size

/-! ## Import / export (`admin_bot.py` lines 886-988)

Documents mirror the JSON dicts `import_json` reads.  A field read
with `rec["key"]` is an `Option` whose `none` models the raising
access (`KeyError`, or a SQL NULL rejected by a NOT NULL column); a
field read with `rec.get("key", default)` stores the value that access
evaluates to.  `datetime('now')` is the `now` parameter. -/

structure CatRec where
  id : Option Int
  name : Option String
  isActive : Int
deriving DecidableEq, Repr

structure ProdRec where
  id : Option Int
  categoryId : Option Int
  name : Option String
  description : Option String
  price : Int
  stock : Int
  isActive : Int
  createdAt : Option String
deriving DecidableEq, Repr

structure MemRec where
  productId : Option Int
  categoryId : Option Int
deriving DecidableEq, Repr

structure VarRec where
  id : Option Int
  productId : Option Int
  name : Option String
  stock : Int
deriving DecidableEq, Repr

structure PhotoRec where
  productId : Option Int
  fileId : Option String
deriving DecidableEq, Repr

structure Doc where
  categories : List CatRec
  products : List ProdRec
  photos : List PhotoRec
  productCategories : List MemRec
  productVariants : List VarRec
deriving DecidableEq, Repr

/-- A fresh AUTOINCREMENT id: larger than every id in use. -/
def nextId (ids : List Int) : Int := ids.foldl max 0 + 1

/-- One category statement: `INSERT INTO categories(id,name,is_active)
VALUES(?,?,?) ON CONFLICT(id) DO UPDATE SET name=excluded.name,
is_active=excluded.is_active`. -/
def applyCat (db : DB) (r : CatRec) : Except String DB :=
  match r.name with
  | none => .error "KeyError: name"
  | some nm =>
    match r.id with
    | none =>
      .ok { db with categories :=
        db.categories ++ [⟨nextId (db.categories.map (·.id)), nm, r.isActive⟩] }
    | some i =>
      if db.categories.any (fun c => c.id == i) then
        .ok { db with categories := (db.categories.map
          (fun c => if c.id == i then { c with name := nm, isActive := r.isActive } else c)) }
      else
        .ok { db with categories := db.categories ++ [⟨i, nm, r.isActive⟩] }

/-- `category_id` foreign-key check for a product row. -/
def catFkOk (db : DB) : Option Int → Bool
  | none => true
  | some c => db.categories.any (fun cc => cc.id == c)

/-- One product statement: upsert by id; the conflict branch updates
every column except `created_at`; `COALESCE(?, datetime('now'))`
supplies the insert-time `created_at`. -/
def applyProd (now : String) (db : DB) (r : ProdRec) : Except String DB :=
  match r.name with
  | none => .error "KeyError: name"
  | some nm =>
    if !catFkOk db r.categoryId then .error "FOREIGN KEY constraint failed"
    else match r.id with
    | none =>
      .ok { db with products := db.products ++
        [⟨nextId (db.products.map (·.id)), r.categoryId, nm, r.description,
          r.price, r.stock, r.isActive, r.createdAt.getD now⟩] }
    | some i =>
      if db.products.any (fun p => p.id == i) then
        .ok { db with products := (db.products.map (fun p =>
          if p.id == i then
            { p with categoryId := r.categoryId, name := nm,
                     description := r.description, price := r.price,
                     stock := r.stock, isActive := r.isActive }
          else p)) }
      else
        .ok { db with products := db.products ++
          [⟨i, r.categoryId, nm, r.description, r.price, r.stock,
            r.isActive, r.createdAt.getD now⟩] }

/-- One membership statement:
`INSERT INTO product_categories(product_id,category_id) VALUES(?,?)
ON CONFLICT(product_id,category_id) DO NOTHING`; NULL keys violate NOT
NULL, absent parents violate the foreign keys. -/
def applyMem (db : DB) (r : MemRec) : Except String DB :=
  match r.productId, r.categoryId with
  | some pid, some cid =>
    if db.productCategories.any (fun m => m.productId == pid && m.categoryId == cid) then
      .ok db
    else if !(db.products.any (fun p => p.id == pid)) ||
            !(db.categories.any (fun c => c.id == cid)) then
      .error "FOREIGN KEY constraint failed"
    else
      .ok { db with productCategories := db.productCategories ++ [⟨pid, cid⟩] }
  | _, _ => .error "NOT NULL constraint failed"

/-- One variant statement: upsert by id with a `product_id` foreign
key. -/
def applyVar (db : DB) (r : VarRec) : Except String DB :=
  match r.productId, r.name with
  | some pid, some nm =>
    if !(db.products.any (fun p => p.id == pid)) then
      .error "FOREIGN KEY constraint failed"
    else match r.id with
    | none =>
      .ok { db with productVariants := db.productVariants ++
        [⟨nextId (db.productVariants.map (·.id)), pid, nm, r.stock⟩] }
    | some i =>
      if db.productVariants.any (fun v => v.id == i) then
        .ok { db with productVariants := (db.productVariants.map (fun v =>
          if v.id == i then { v with productId := pid, name := nm, stock := r.stock }
          else v)) }
      else
        .ok { db with productVariants := db.productVariants ++ [⟨i, pid, nm, r.stock⟩] }
  | _, _ => .error "KeyError"

/-- One photo statement: a plain `INSERT INTO
photos(product_id,file_id)` — no conflict clause, fresh id. -/
def applyPhoto (db : DB) (r : PhotoRec) : Except String DB :=
  match r.productId, r.fileId with
  | some pid, some fid =>
    if !(db.products.any (fun p => p.id == pid)) then
      .error "FOREIGN KEY constraint failed"
    else
      .ok { db with photos := db.photos ++
        [⟨nextId (db.photos.map (·.id)), pid, fid⟩] }
  | _, _ => .error "KeyError"

/-- Run a phase of statements in order, stopping at the first raise. -/
def applyAll {ρ : Type} (f : DB → ρ → Except String DB) :
    DB → List ρ → Except String DB
  | db, [] => .ok db
  | db, r :: rs =>
    match f db r with
    | .ok db1 => applyAll f db1 rs
    | .error e => .error e

/-- The legacy-membership synthesis (admin_bot.py lines 949-956): when
the document has no membership records, one is synthesized from each
product's `category_id` reference. -/
def synthMems (prods : List ProdRec) : List MemRec :=
  (prods.filter (fun p => p.categoryId.isSome)).map
    (fun p => ⟨p.id, p.categoryId⟩)

/-- The statement sequence of `import_json` inside the `BEGIN`-ed
transaction: categories, products, membership synthesis, memberships,
variants, photos. -/
def import_json_run (now : String) (db : DB) (doc : Doc) : Except String DB :=
  match applyAll applyCat db doc.categories with
  | .error e => .error e
  | .ok db1 =>
  match applyAll (applyProd now) db1 doc.products with
  | .error e => .error e
  | .ok db2 =>
  let mems := if doc.productCategories.isEmpty then synthMems doc.products
              else doc.productCategories
  match applyAll applyMem db2 mems with
  | .error e => .error e
  | .ok db3 =>
  match applyAll applyVar db3 doc.productVariants with
  | .error e => .error e
  | .ok db4 =>
  match applyAll applyPhoto db4 doc.photos with
  | .error e => .error e
  | .ok db5 => .ok db5

/-- `import_json` (admin_bot.py lines 905-988): the whole sequence in
one transaction; on success it commits, on any exception it rolls back
(the visible store keeps its pre-call state) and re-raises.  Returns
the visible store after the call and the raised error, if any. -/
def import_json (now : String) (db : DB) (doc : Doc) : DB × Option String :=
  match import_json_run now db doc with
  | .ok db1 => (db1, none)
  | .error e => (db, some e)

/-- Insertion into a key-sorted list. -/
def insertSorted {α : Type} (key : α → Int) (a : α) : List α → List α
  | [] => [a]
  | b :: bs =>
    if key a ≤ key b then a :: b :: bs else b :: insertSorted key a bs

/-- Sorting used by the export queries (`ORDER BY`). -/
def sortByKey {α : Type} (key : α → Int) (l : List α) : List α :=
  l.foldr (insertSorted key) []

/-- `export_json` (admin_bot.py lines 886-902): full rows of
categories, products and variants, `product_id,file_id` of photos,
`product_id,category_id` of memberships, each ordered by the query's
key. -/
def export_json (db : DB) : Doc :=
  { categories := (sortByKey (·.id) db.categories).map
      (fun c => ⟨some c.id, some c.name, c.isActive⟩)
    products := (sortByKey (·.id) db.products).map
      (fun p => ⟨some p.id, p.categoryId, some p.name, p.description,
                 p.price, p.stock, p.isActive, some p.createdAt⟩)
    photos := (sortByKey (·.id) db.photos).map
      (fun ph => ⟨some ph.productId, some ph.fileId⟩)
    productCategories := (sortByKey (·.productId) db.productCategories).map
      (fun m => ⟨some m.productId, some m.categoryId⟩)
    productVariants := (sortByKey (·.productId) db.productVariants).map
      (fun v => ⟨some v.id, some v.productId, some v.name, v.stock⟩) }

/-- The PRIMARY KEY / FOREIGN KEY invariants `init_db`'s schema
enforces on the live store. -/
def FkConsistent (db : DB) : Prop :=
  (db.categories.map (·.id)).Nodup ∧
  (db.products.map (·.id)).Nodup ∧
  (db.productVariants.map (·.id)).Nodup ∧
  (∀ p ∈ db.products, ∀ c, p.categoryId = some c →
    ∃ cc ∈ db.categories, cc.id = c) ∧
  (∀ m ∈ db.productCategories,
    (∃ p ∈ db.products, p.id = m.productId) ∧
    ∃ c ∈ db.categories, c.id = m.categoryId) ∧
  (∀ v ∈ db.productVariants, ∃ p ∈ db.products, p.id = v.productId) ∧
  (∀ ph ∈ db.photos, ∃ p ∈ db.products, p.id = ph.productId)

instance (db : DB) : Decidable (FkConsistent db) := by
  unfold FkConsistent; infer_instance

/-! ## Pending input continuations (`context.user_data` await flags)

Each wizard step is armed by a button handler setting one
`await_...` key in `context.user_data`; `on_text` (admin_bot.py lines
1980-2340) walks a fixed chain of `user_data.pop(...)` checks and the
first truthy one handles the message. -/

structure UserData where
  awaitAddphotoPid : Option Int
  awaitWelcome : Bool
  awaitLinkText : Bool
  awaitLinkUrl : Bool
  awaitLinkTxtI : Option Int
  awaitLinkUrlI : Option Int
  awaitCatAdd : Bool
  awaitCatRename : Option Int
  awaitProdName : Bool
  awaitProdDesc : Bool
  awaitProdNameEdit : Option Int
  awaitProdDescEdit : Option Int
  awaitVariantName : Option Int
  awaitVariantStock : Option Int
  awaitVariantNameEdit : Option (Int × Int)
  awaitVariantStockEdit : Option (Int × Int)
  awaitReserveText : Bool
  awaitReserveUsername : Bool
  awaitReserveTpl : Bool
  awaitEditorAdd : Bool
deriving DecidableEq, Repr

/-- `user_data` with no pending key. -/
def emptyUD : UserData :=
  { awaitAddphotoPid := none, awaitWelcome := false, awaitLinkText := false
    awaitLinkUrl := false, awaitLinkTxtI := none, awaitLinkUrlI := none
    awaitCatAdd := false, awaitCatRename := none, awaitProdName := false
    awaitProdDesc := false, awaitProdNameEdit := none, awaitProdDescEdit := none
    awaitVariantName := none, awaitVariantStock := none
    awaitVariantNameEdit := none, awaitVariantStockEdit := none
    awaitReserveText := false, awaitReserveUsername := false
    awaitReserveTpl := false, awaitEditorAdd := false }

/-- The continuation a free-form message can be interpreted under. -/
inductive ContTag where
  | photoDone | welcome | linkAddText | linkAddUrl | linkEditText | linkEditUrl
  | catAdd | catRename | prodAddName | prodAddDesc | prodNameEdit | prodDescEdit
  | variantAddName | variantAddStock | variantNameEdit | variantStockEdit
  | reserveText | reserveUsername | reserveTpl | editorAdd
deriving DecidableEq, Repr

/-- Python truthiness of a popped optional integer (`if cid:`). -/
def truthyOptInt : Option Int → Bool
  | some n => n != 0
  | none => false

/-- The continuation-selection chain of `on_text`: which pending flag
handles a free-text message, in the order the source checks (and pops)
them.  `isDoneWord` is `text.lower() in ("готово", "готово!",
"done")`; the `await_addphoto_pid` branch uses `.get`, every other
check pops its key before testing it (so an untruthy popped value is
consumed and the chain continues).  Returns the branch taken and the
`user_data` left behind by the pops. -/
def onTextDispatch (ud0 : UserData) (isDoneWord : Bool) :
    Option ContTag × UserData :=
  if ud0.awaitAddphotoPid.isSome && isDoneWord then
    (some .photoDone, { ud0 with awaitAddphotoPid := none })
  else
  let v := ud0.awaitWelcome
  let ud := { ud0 with awaitWelcome := false }
  if v then (some .welcome, ud) else
  let v := ud.awaitLinkText
  let ud := { ud with awaitLinkText := false }
  if v then (some .linkAddText, ud) else
  let v := ud.awaitLinkUrl
  let ud := { ud with awaitLinkUrl := false }
  if v then (some .linkAddUrl, ud) else
  let v := ud.awaitLinkTxtI
  let ud := { ud with awaitLinkTxtI := none }
  if v.isSome then (some .linkEditText, ud) else
  let v := ud.awaitLinkUrlI
  let ud := { ud with awaitLinkUrlI := none }
  if v.isSome then (some .linkEditUrl, ud) else
  let v := ud.awaitCatAdd
  let ud := { ud with awaitCatAdd := false }
  if v then (some .catAdd, ud) else
  let v := ud.awaitCatRename
  let ud := { ud with awaitCatRename := none }
  if truthyOptInt v then (some .catRename, ud) else
  let v := ud.awaitProdName
  let ud := { ud with awaitProdName := false }
  if v then (some .prodAddName, ud) else
  let v := ud.awaitProdDesc
  let ud := { ud with awaitProdDesc := false }
  if v then (some .prodAddDesc, ud) else
  let v := ud.awaitProdNameEdit
  let ud := { ud with awaitProdNameEdit := none }
  if truthyOptInt v then (some .prodNameEdit, ud) else
  let v := ud.awaitProdDescEdit
  let ud := { ud with awaitProdDescEdit := none }
  if truthyOptInt v then (some .prodDescEdit, ud) else
  let v := ud.awaitVariantName
  let ud := { ud with awaitVariantName := none }
  if v.isSome then (some .variantAddName, ud) else
  let v := ud.awaitVariantStock
  let ud := { ud with awaitVariantStock := none }
  if v.isSome then (some .variantAddStock, ud) else
  let v := ud.awaitVariantNameEdit
  let ud := { ud with awaitVariantNameEdit := none }
  if v.isSome then (some .variantNameEdit, ud) else
  let v := ud.awaitVariantStockEdit
  let ud := { ud with awaitVariantStockEdit := none }
  if v.isSome then (some .variantStockEdit, ud) else
  let v := ud.awaitReserveText
  let ud := { ud with awaitReserveText := false }
  if v then (some .reserveText, ud) else
  let v := ud.awaitReserveUsername
  let ud := { ud with awaitReserveUsername := false }
  if v then (some .reserveUsername, ud) else
  let v := ud.awaitReserveTpl
  let ud := { ud with awaitReserveTpl := false }
  if v then (some .reserveTpl, ud) else
  let v := ud.awaitEditorAdd
  let ud := { ud with awaitEditorAdd := false }
  if v then (some .editorAdd, ud) else
  (none, ud)

/-- An arming button handler: each case writes exactly the
`user_data` key(s) its `cb` branch writes. -/
inductive Arm where
  | welcome
  | linkAdd
  | linkTxt (i : Int)
  | linkUrl (i : Int)
  | catAdd
  | catRename (cid : Int)
  | prodAdd
  | prodNameEdit (pid : Int)
  | prodDescEdit (pid : Int)
  | variantAdd (pid : Int)
  | variantNameEdit (pid vid : Int)
  | variantStockEdit (pid vid : Int)
  | reserveText
  | reserveUsername
  | reserveTpl
  | editorAdd
deriving DecidableEq, Repr

/-- What each arming handler writes into `user_data` (admin_bot.py
`cb`, the `context.user_data[...] = ...` assignments; none of them
clears any other pending key). -/
def applyArm : Arm → UserData → UserData
  | .welcome, ud => { ud with awaitWelcome := true }
  | .linkAdd, ud => { ud with awaitLinkText := true }
  | .linkTxt i, ud => { ud with awaitLinkTxtI := some i }
  | .linkUrl i, ud => { ud with awaitLinkUrlI := some i }
  | .catAdd, ud => { ud with awaitCatAdd := true }
  | .catRename cid, ud => { ud with awaitCatRename := some cid }
  | .prodAdd, ud => { ud with awaitProdName := true }
  | .prodNameEdit pid, ud => { ud with awaitProdNameEdit := some pid }
  | .prodDescEdit pid, ud => { ud with awaitProdDescEdit := some pid }
  | .variantAdd pid, ud => { ud with awaitVariantName := some pid }
  | .variantNameEdit pid vid, ud => { ud with awaitVariantNameEdit := some (pid, vid) }
  | .variantStockEdit pid vid, ud => { ud with awaitVariantStockEdit := some (pid, vid) }
  | .reserveText, ud => { ud with awaitReserveText := true }
  | .reserveUsername, ud => { ud with awaitReserveUsername := true }
  | .reserveTpl, ud => { ud with awaitReserveTpl := true }
  | .editorAdd, ud => { ud with awaitEditorAdd := true }

/-- The continuation tag each arming handler's wizard step expects. -/
def armTag : Arm → ContTag
  | .welcome => .welcome
  | .linkAdd => .linkAddText
  | .linkTxt _ => .linkEditText
  | .linkUrl _ => .linkEditUrl
  | .catAdd => .catAdd
  | .catRename _ => .catRename
  | .prodAdd => .prodAddName
  | .prodNameEdit _ => .prodNameEdit
  | .prodDescEdit _ => .prodDescEdit
  | .variantAdd _ => .variantAddName
  | .variantNameEdit _ _ => .variantNameEdit
  | .variantStockEdit _ _ => .variantStockEdit
  | .reserveText => .reserveText
  | .reserveUsername => .reserveUsername
  | .reserveTpl => .reserveTpl
  | .editorAdd => .editorAdd

/-- The payloads that survive their handler's truthiness test (`if
cid:`-style checks reject 0). -/
def ArmValid : Arm → Prop
  | .catRename cid => cid ≠ 0
  | .prodNameEdit pid => pid ≠ 0
  | .prodDescEdit pid => pid ≠ 0
  | _ => True

instance : (a : Arm) → Decidable (ArmValid a) := by
  intro a; unfold ArmValid; cases a <;> infer_instance

/-! ## Product-token routing (`cb`, admin_bot.py lines 1208-1575)

The store-mutating product commands and their guards.  `udPid`/`udSel`
are the `prod_cats_pid` / `prod_cats_selected` keys of `user_data`. -/

structure BotState where
  db : DB
  screens : List String
deriving DecidableEq, Repr

inductive ProdToken where
  | prodToggle (pid : Int)
  | prodDeleteOk (pid : Int)
  | prodCatsDone (pid : Int)
  | variantDeleteOk (pid : Int) (vid : Int)
deriving DecidableEq, Repr

/-- `SELECT c.id ... FROM categories c JOIN product_categories pc ON
pc.category_id=c.id WHERE pc.product_id=?` — the category ids of a
product (`product_categories(pid)` in admin_bot.py lines 365-371). -/
def productCategoryIds (db : DB) (pid : Int) : List Int :=
  (db.productCategories.filter (fun m => m.productId == pid)).map (·.categoryId)

/-- The `cb` handling of the store-mutating product tokens: the
`adm:`-prefix staff gate (admin_bot.py line 1210), then each branch's
`has_perm(uid, "prods")` check, then the branch body and its
refresh-render. -/
def cb_prod_token (adminIds : List Int) (editors : List EditorRow) (uid : Int)
    (udPid : Option Int) (udSel : List Int) (st : BotState) (t : ProdToken) :
    BotState :=
  if !require_staff adminIds editors uid then st else
  match t with
  | .prodToggle pid =>
    if !has_perm adminIds editors uid "prods" then st else
    let db := st.db
    let db1 :=
      match (db.products.filter (fun p => p.id == pid)).head? with
      | some r =>
        { db with products := (db.products.map (fun p =>
            if p.id == pid then
              { p with isActive := if r.isActive != 0 then 0 else 1 }
            else p)) }
      | none => db
    { db := db1, screens := st.screens ++ ["adm_open_prod"] }
  | .prodDeleteOk pid =>
    if !has_perm adminIds editors uid "prods" then st else
    { db := sqliteDeleteProduct st.db pid
      screens := st.screens ++ ["adm_open_prods_list"] }
  | .prodCatsDone pid =>
    if !has_perm adminIds editors uid "prods" then st else
    let selected :=
      if udPid == some pid then udSel else productCategoryIds st.db pid
    let db := st.db
    let db1 := { db with productCategories :=
      (db.productCategories.filter (fun m => m.productId != pid)) ++
        ((sortByKey (fun c => c) selected.dedup).map (fun c => ⟨pid, c⟩)) }
    { db := db1, screens := st.screens ++ ["adm_open_prod"] }
  | .variantDeleteOk pid vid =>
    if !has_perm adminIds editors uid "prods" then st else
    { db := { st.db with productVariants :=
        st.db.productVariants.filter (fun v => !(v.id == vid && v.productId == pid)) }
      screens := st.screens ++ ["adm_open_prod_variants"] }

/-! ## Helper lemmas -/

theorem map_eq_self_of {α : Type} {l : List α} {f : α → α}
    (h : ∀ a ∈ l, f a = a) : l.map f = l := by
  induction l with
  | nil => rfl
  | cons x xs ih =>
    simp only [List.map_cons, h x (List.mem_cons_self x xs)]
    rw [ih (fun a ha => h a (List.mem_cons_of_mem x ha))]

theorem scopeIds_delete_self (db : MsgDB) (c : Int) (s : String) :
    scopeIds (delete_scope db c s).1 c s = [] := by
  simp [scopeIds, delete_scope, List.filter_filter]

theorem scopeIds_append (d1 d2 : MsgDB) (c : Int) (s : String) :
    scopeIds (d1 ++ d2) c s = scopeIds d1 c s ++ scopeIds d2 c s := by
  simp [scopeIds]

/-! ## C8 -/

/-- C8: `delete_scope` is idempotent — after one call the scope has no
recorded ids, so a second call finds nothing, attempts no transport
deletions, raises nothing, and leaves the table exactly as the first
call left it. -/
theorem delete_scope_idempotent (db : MsgDB) (c : Int) (s : String) :
    delete_scope (delete_scope db c s).1 c s = ((delete_scope db c s).1, []) := by
  have h2 := scopeIds_delete_self db c s
  simp only [delete_scope] at h2 ⊢
  rw [List.filter_filter]
  refine Prod.ext ?_ h2
  simp

/-! ## C5 -/

/-- C5: after a successful `replace_menu`, the ids recorded for
`(chat, scope)` are exactly the id the send returned, and no id that
was recorded for that scope before the call is still recorded
(the transport returns a fresh id, hence the freshness hypothesis). -/
theorem replace_menu_scope_exact (db : MsgDB) (c : Int) (s : String) (mid : Int)
    (hfresh : mid ∉ scopeIds db c s) :
    scopeIds (replace_menu db c s mid) c s = [mid] ∧
    ∀ m ∈ scopeIds db c s, m ∉ scopeIds (replace_menu db c s mid) c s := by
  have h1 : scopeIds (replace_menu db c s mid) c s = [mid] := by
    unfold replace_menu remember
    rw [scopeIds_append, scopeIds_delete_self]
    simp [scopeIds]
  refine ⟨h1, fun m hm hmem => ?_⟩
  rw [h1] at hmem
  simp only [List.mem_singleton] at hmem
  exact hfresh (hmem ▸ hm)

/-- Witness for C5 at a concrete store. -/
theorem replace_menu_scope_exact_witness :
    (200 : Int) ∉ scopeIds [⟨1, 100, "home"⟩] 1 "home" ∧
    (scopeIds (replace_menu [⟨1, 100, "home"⟩] 1 "home" 200) 1 "home" = [200] ∧
      ∀ m ∈ scopeIds [⟨1, 100, "home"⟩] 1 "home",
        m ∉ scopeIds (replace_menu [⟨1, 100, "home"⟩] 1 "home" 200) 1 "home") :=
  ⟨by decide, replace_menu_scope_exact [⟨1, 100, "home"⟩] 1 "home" 200 (by decide)⟩

/-! ## C9 -/

/-- C9: on a 3-entry link list, move-down at index 0 swaps the first
two entries, move-down at the moved entry's new index 1 swaps the last
two, and move-down at the last index is a no-op; every other entry
keeps its fields and position. -/
theorem links_dn_three_entries (a b c : LinkEntry) :
    links_dn [a, b, c] 0 = [b, a, c] ∧
    links_dn [b, a, c] 1 = [b, c, a] ∧
    links_dn [a, b, c] 2 = [a, b, c] :=
  ⟨rfl, rfl, rfl⟩

/-! ## C10 -/

/-- A stored `links_json` whose entry has `active: "yes"`. -/
def badLinksJson : Json :=
  .arr [.obj [("text", .str "a"), ("url", .str "b"), ("active", .str "yes")]]

/-- C10 counterexample: `load_links` is claimed never to raise, but on
a stored array whose entry carries a truthy non-numeric `active` value
the `int(x.get("active", 1) or 0)` conversion raises `ValueError`. -/
theorem load_links_raises_on_bad_active :
    load_links (some badLinksJson) = .error "ValueError" := rfl

def isArr : Json → Bool
  | .arr _ => true
  | _ => false

theorem normLink_ok_some {x : Json} {e : LinkEntry}
    (h : normLink x = .ok (some e)) :
    e.text ≠ "" ∧ e.url ≠ "" ∧ (e.active = 0 ∨ e.active = 1) := by
  cases x with
  | obj kvs =>
    simp only [normLink] at h
    by_cases hA : pyStrip (pyStr (objGet kvs "text" (Json.str ""))) = ""
    · rw [if_pos (by simp [hA])] at h
      exact absurd h (by simp)
    · by_cases hB : pyStrip (pyStr (objGet kvs "url" (Json.str ""))) = ""
      · rw [if_pos (by simp [hB])] at h
        exact absurd h (by simp)
      · rw [if_neg (by simp [hA, hB])] at h
        split at h
        · simp only [Except.ok.injEq, Option.some.injEq] at h
          subst h
          refine ⟨hA, hB, ?_⟩
          rename_i i _
          by_cases hi : i = 0 <;> simp [hi]
        · exact absurd h (by simp)
  | null => exact absurd h (by simp [normLink])
  | bool b => exact absurd h (by simp [normLink])
  | num n => exact absurd h (by simp [normLink])
  | str s => exact absurd h (by simp [normLink])
  | arr xs => exact absurd h (by simp [normLink])

theorem collectLinks_ok_mem {xs : List Json} {l : List LinkEntry}
    (h : collectLinks xs = .ok l) :
    ∀ e ∈ l, e.text ≠ "" ∧ e.url ≠ "" ∧ (e.active = 0 ∨ e.active = 1) := by
  induction xs generalizing l with
  | nil =>
    simp only [collectLinks, Except.ok.injEq] at h
    subst h; intro e he; exact absurd he (List.not_mem_nil e)
  | cons x xs ih =>
    simp only [collectLinks] at h
    cases hnl : normLink x with
    | error e1 => simp [hnl] at h
    | ok o =>
      cases o with
      | none =>
        simp only [hnl] at h
        exact ih h
      | some le =>
        simp only [hnl] at h
        cases hct : collectLinks xs with
        | error e2 => simp [hct] at h
        | ok t =>
          simp only [hct, Except.ok.injEq] at h
          subst h
          intro e he
          rcases List.mem_cons.mp he with rfl | he2
          · exact normLink_ok_some hnl
          · exact ih hct e he2

/-- C10 (amended): `load_links` yields `[]` on a failed parse or a
non-array document, and every entry it returns has non-empty stripped
`text` and `url` and an `active` normalized to 0 or 1, entries failing
the checks being dropped; however the call is not raise-free — a
truthy non-numeric `active` value makes it raise (see the
counterexample). -/
theorem load_links_normalizes (parsed : Option Json) (l : List LinkEntry)
    (h : load_links parsed = .ok l) :
    (parsed = none → l = []) ∧
    (∀ j, parsed = some j → isArr j = false → l = []) ∧
    ∀ e ∈ l, e.text ≠ "" ∧ e.url ≠ "" ∧ (e.active = 0 ∨ e.active = 1) := by
  refine ⟨?_, ?_, ?_⟩
  · rintro rfl
    simp only [load_links, Except.ok.injEq] at h
    exact h.symm
  · rintro j rfl hj
    cases j <;> simp_all [load_links, isArr]
  · match parsed with
    | none =>
      simp only [load_links, Except.ok.injEq] at h
      subst h; intro e he; exact absurd he (List.not_mem_nil e)
    | some (.arr xs) => exact collectLinks_ok_mem h
    | some .null | some (.bool _) | some (.num _) | some (.str _)
    | some (.obj _) =>
      simp only [load_links, Except.ok.injEq] at h
      subst h; intro e he; exact absurd he (List.not_mem_nil e)

/-- Witness for C10 (amended) on a concrete stored document. -/
theorem load_links_normalizes_witness :
    load_links (some (.arr [.obj [("text", .str " a "), ("url", .str "u"),
        ("active", .num 2)], .num 7])) = .ok [⟨"a", "u", 1⟩] ∧
    ∀ e ∈ [(⟨"a", "u", 1⟩ : LinkEntry)],
      e.text ≠ "" ∧ e.url ≠ "" ∧ (e.active = 0 ∨ e.active = 1) :=
  ⟨rfl,
   (load_links_normalizes (some (.arr [.obj [("text", .str " a "),
      ("url", .str "u"), ("active", .num 2)], .num 7])) [⟨"a", "u", 1⟩] rfl).2.2⟩

/-! ## C1 -/

/-- The pending continuations of a `user_data` state, listed in the
order `on_text` checks them. -/
def pendingTags (ud : UserData) (d : Bool) : List ContTag :=
  (if ud.awaitAddphotoPid.isSome && d then [ContTag.photoDone] else []) ++
  (if ud.awaitWelcome then [ContTag.welcome] else []) ++
  (if ud.awaitLinkText then [ContTag.linkAddText] else []) ++
  (if ud.awaitLinkUrl then [ContTag.linkAddUrl] else []) ++
  (if ud.awaitLinkTxtI.isSome then [ContTag.linkEditText] else []) ++
  (if ud.awaitLinkUrlI.isSome then [ContTag.linkEditUrl] else []) ++
  (if ud.awaitCatAdd then [ContTag.catAdd] else []) ++
  (if truthyOptInt ud.awaitCatRename then [ContTag.catRename] else []) ++
  (if ud.awaitProdName then [ContTag.prodAddName] else []) ++
  (if ud.awaitProdDesc then [ContTag.prodAddDesc] else []) ++
  (if truthyOptInt ud.awaitProdNameEdit then [ContTag.prodNameEdit] else []) ++
  (if truthyOptInt ud.awaitProdDescEdit then [ContTag.prodDescEdit] else []) ++
  (if ud.awaitVariantName.isSome then [ContTag.variantAddName] else []) ++
  (if ud.awaitVariantStock.isSome then [ContTag.variantAddStock] else []) ++
  (if ud.awaitVariantNameEdit.isSome then [ContTag.variantNameEdit] else []) ++
  (if ud.awaitVariantStockEdit.isSome then [ContTag.variantStockEdit] else []) ++
  (if ud.awaitReserveText then [ContTag.reserveText] else []) ++
  (if ud.awaitReserveUsername then [ContTag.reserveUsername] else []) ++
  (if ud.awaitReserveTpl then [ContTag.reserveTpl] else []) ++
  (if ud.awaitEditorAdd then [ContTag.editorAdd] else [])

theorem onText_first_pending (ud : UserData) (d : Bool) :
    (onTextDispatch ud d).1 = (pendingTags ud d).head? := by
  by_cases h0 : (ud.awaitAddphotoPid.isSome && d) = true
  · simp [onTextDispatch, pendingTags, h0]
  · by_cases h1 : ud.awaitWelcome = true
    · simp [onTextDispatch, pendingTags, h0, h1]
    · by_cases h2 : ud.awaitLinkText = true
      · simp [onTextDispatch, pendingTags, h0, h1, h2]
      · by_cases h3 : ud.awaitLinkUrl = true
        · simp [onTextDispatch, pendingTags, h0, h1, h2, h3]
        · by_cases h4 : ud.awaitLinkTxtI.isSome = true
          · simp [onTextDispatch, pendingTags, h0, h1, h2, h3, h4]
          · by_cases h5 : ud.awaitLinkUrlI.isSome = true
            · simp [onTextDispatch, pendingTags, h0, h1, h2, h3, h4, h5]
            · by_cases h6 : ud.awaitCatAdd = true
              · simp [onTextDispatch, pendingTags, h0, h1, h2, h3, h4, h5, h6]
              · by_cases h7 : truthyOptInt ud.awaitCatRename = true
                · simp [onTextDispatch, pendingTags, h0, h1, h2, h3, h4, h5,
                    h6, h7]
                · by_cases h8 : ud.awaitProdName = true
                  · simp [onTextDispatch, pendingTags, h0, h1, h2, h3, h4, h5,
                      h6, h7, h8]
                  · by_cases h9 : ud.awaitProdDesc = true
                    · simp [onTextDispatch, pendingTags, h0, h1, h2, h3, h4,
                        h5, h6, h7, h8, h9]
                    · by_cases h10 : truthyOptInt ud.awaitProdNameEdit = true
                      · simp [onTextDispatch, pendingTags, h0, h1, h2, h3, h4,
                          h5, h6, h7, h8, h9, h10]
                      · by_cases h11 : truthyOptInt ud.awaitProdDescEdit = true
                        · simp [onTextDispatch, pendingTags, h0, h1, h2, h3,
                            h4, h5, h6, h7, h8, h9, h10, h11]
                        · by_cases h12 : ud.awaitVariantName.isSome = true
                          · simp [onTextDispatch, pendingTags, h0, h1, h2, h3,
                              h4, h5, h6, h7, h8, h9, h10, h11, h12]
                          · by_cases h13 : ud.awaitVariantStock.isSome = true
                            · simp [onTextDispatch, pendingTags, h0, h1, h2,
                                h3, h4, h5, h6, h7, h8, h9, h10, h11, h12, h13]
                            · by_cases h14 : ud.awaitVariantNameEdit.isSome = true
                              · simp [onTextDispatch, pendingTags, h0, h1, h2,
                                  h3, h4, h5, h6, h7, h8, h9, h10, h11, h12,
                                  h13, h14]
                              · by_cases h15 : ud.awaitVariantStockEdit.isSome = true
                                · simp [onTextDispatch, pendingTags, h0, h1,
                                    h2, h3, h4, h5, h6, h7, h8, h9, h10, h11,
                                    h12, h13, h14, h15]
                                · by_cases h16 : ud.awaitReserveText = true
                                  · simp [onTextDispatch, pendingTags, h0, h1,
                                      h2, h3, h4, h5, h6, h7, h8, h9, h10,
                                      h11, h12, h13, h14, h15, h16]
                                  · by_cases h17 : ud.awaitReserveUsername = true
                                    · simp [onTextDispatch, pendingTags, h0,
                                        h1, h2, h3, h4, h5, h6, h7, h8, h9,
                                        h10, h11, h12, h13, h14, h15, h16, h17]
                                    · by_cases h18 : ud.awaitReserveTpl = true
                                      · simp [onTextDispatch, pendingTags, h0,
                                          h1, h2, h3, h4, h5, h6, h7, h8, h9,
                                          h10, h11, h12, h13, h14, h15, h16,
                                          h17, h18]
                                      · by_cases h19 : ud.awaitEditorAdd = true
                                        · simp [onTextDispatch, pendingTags,
                                            h0, h1, h2, h3, h4, h5, h6, h7,
                                            h8, h9, h10, h11, h12, h13, h14,
                                            h15, h16, h17, h18, h19]
                                        · simp [onTextDispatch, pendingTags,
                                            h0, h1, h2, h3, h4, h5, h6, h7,
                                            h8, h9, h10, h11, h12, h13, h14,
                                            h15, h16, h17, h18, h19]

/-- C1 counterexample: the user first arms the welcome-text
continuation (`adm:welcome`), then arms the add-category continuation
(`adm:cat:add`) — the most recently armed one.  A free-text message is
interpreted under the OLD `welcome` continuation, because arming does
not discard previously pending flags and `on_text` checks
`await_welcome` first. -/
theorem continuation_stacking_cex :
    (onTextDispatch (applyArm .catAdd (applyArm .welcome emptyUD)) false).1 =
      some ContTag.welcome ∧
    armTag Arm.catAdd = ContTag.catAdd ∧
    ContTag.welcome ≠ ContTag.catAdd :=
  ⟨rfl, rfl, by decide⟩

/-- C1 (amended): arming a continuation does not discard previously
pending ones; a free-text message is interpreted under the first
pending flag in `on_text`'s fixed check order (which may be an older
continuation), and an arming handler does leave its own tag pending —
in particular a continuation armed from a clean state is the one that
interprets the next message. -/
theorem on_text_continuation (ud : UserData) (d : Bool) (a : Arm)
    (ha : ArmValid a) :
    (onTextDispatch ud d).1 = (pendingTags ud d).head? ∧
    armTag a ∈ pendingTags (applyArm a ud) d := by
  refine ⟨onText_first_pending ud d, ?_⟩
  cases a with
  | catRename cid =>
    simp only [ArmValid] at ha
    simp [pendingTags, applyArm, armTag, truthyOptInt, ha]
  | prodNameEdit pid =>
    simp only [ArmValid] at ha
    simp [pendingTags, applyArm, armTag, truthyOptInt, ha]
  | prodDescEdit pid =>
    simp only [ArmValid] at ha
    simp [pendingTags, applyArm, armTag, truthyOptInt, ha]
  | welcome => simp [pendingTags, applyArm, armTag]
  | linkAdd => simp [pendingTags, applyArm, armTag]
  | linkTxt i => simp [pendingTags, applyArm, armTag]
  | linkUrl i => simp [pendingTags, applyArm, armTag]
  | catAdd => simp [pendingTags, applyArm, armTag]
  | prodAdd => simp [pendingTags, applyArm, armTag]
  | variantAdd pid => simp [pendingTags, applyArm, armTag]
  | variantNameEdit pid vid => simp [pendingTags, applyArm, armTag]
  | variantStockEdit pid vid => simp [pendingTags, applyArm, armTag]
  | reserveText => simp [pendingTags, applyArm, armTag]
  | reserveUsername => simp [pendingTags, applyArm, armTag]
  | reserveTpl => simp [pendingTags, applyArm, armTag]
  | editorAdd => simp [pendingTags, applyArm, armTag]

/-- Witness for C1 (amended) at a concrete arm and state. -/
theorem on_text_continuation_witness :
    ArmValid (Arm.catRename 5) ∧
    ((onTextDispatch emptyUD false).1 = (pendingTags emptyUD false).head? ∧
      armTag (Arm.catRename 5) ∈
        pendingTags (applyArm (Arm.catRename 5) emptyUD) false) :=
  ⟨by decide, on_text_continuation emptyUD false (Arm.catRename 5) (by decide)⟩

/-! ## C6 -/

/-- C6: an actor classified as Editor (an `editors` row exists, the id
is not in the owner set) whose `perm_prods` flag is 0 gets a silent
no-op from every store-mutating product token: the store is unchanged,
no screen is rendered, and no error message is produced — regardless
of the row's other capability flags or its `is_active` value. -/
theorem editor_without_prod_perm (adminIds : List Int) (editors : List EditorRow)
    (uid : Int) (row : EditorRow) (udPid : Option Int) (udSel : List Int)
    (st : BotState) (t : ProdToken)
    (hna : is_admin adminIds uid = false)
    (hrow : editorRow editors uid = some row)
    (hperm : row.permProds = 0) :
    cb_prod_token adminIds editors uid udPid udSel st t = st := by
  have hp : has_perm adminIds editors uid "prods" = false := by
    simp [has_perm, hna, hrow, permCol, hperm]
  unfold cb_prod_token
  cases t <;> simp [hp]

/-- Witness for C6: a concrete inactive-flagged editor with full other
permissions but `perm_prods = 0`, a concrete store, and the
delete-confirmation token. -/
theorem editor_without_prod_perm_witness :
    is_admin [42] 7 = false ∧
    editorRow [⟨7, "ed", 1, 1, 0, 1, 1, 1, 1⟩] 7 =
      some ⟨7, "ed", 1, 1, 0, 1, 1, 1, 1⟩ ∧
    cb_prod_token [42] [⟨7, "ed", 1, 1, 0, 1, 1, 1, 1⟩] 7 none []
      ⟨⟨[], [⟨1, none, "P", none, 0, 0, 1, "t"⟩], [], [], []⟩, []⟩
      (.prodDeleteOk 1) =
      ⟨⟨[], [⟨1, none, "P", none, 0, 0, 1, "t"⟩], [], [], []⟩, []⟩ :=
  ⟨rfl, rfl,
   editor_without_prod_perm [42] [⟨7, "ed", 1, 1, 0, 1, 1, 1, 1⟩] 7
     ⟨7, "ed", 1, 1, 0, 1, 1, 1, 1⟩ none []
     ⟨⟨[], [⟨1, none, "P", none, 0, 0, 1, "t"⟩], [], [], []⟩, []⟩
     (.prodDeleteOk 1) rfl rfl rfl⟩

/-! ## C4 -/

def cats9 : List Category :=
  [⟨1, "c1", 1⟩, ⟨2, "c2", 1⟩, ⟨3, "c3", 1⟩, ⟨4, "c4", 1⟩, ⟨5, "c5", 1⟩,
   ⟨6, "c6", 1⟩, ⟨7, "c7", 1⟩, ⟨8, "c8", 1⟩, ⟨9, "c9", 1⟩]

/-- C4 counterexample: the categories list keyboard does not clamp the
requested page.  With 9 active categories (page size 8), requesting
page 5 renders an empty slice — not the clamped page 1 slice `[9]`
the claim requires — and still attaches a previous control. -/
theorem kb_cats_no_clamp_cex :
    (kb_cats cats9 5).items = [] ∧
    (specPaginate cats9 5 8).map (·.id) = [9] ∧
    (kb_cats cats9 5).hasPrev = true ∧
    (kb_cats cats9 5).hasNext = false :=
  ⟨rfl, rfl, rfl, rfl⟩

theorem bool_and_and_self (a b : Bool) : ((a && b) && a) = (a && b) := by
  cases a <;> cases b <;> rfl

/-- C4 (amended): only the shop product grid clamps the requested page
into `[0, ceil(total/size)-1]` and renders the clamped slice, with a
previous control iff the slice does not start at 0 and a next control
iff it does not reach the total (so total=9, size=4, page 5 renders
page 2 = item 8 with previous and no next); the category (and product)
list keyboards render the raw slice `[page*size, page*size+size)`
without clamping, attaching previous iff `page*size > 0` and next iff
`page*size + size < total`. -/
theorem pagination_semantics (prods : List Product) (cats : List Category)
    (page : Nat) (hne : prods ≠ []) :
    (show_shop_grid prods (page : Int)).items =
      (specPaginate prods page 4).map (·.id) ∧
    ((show_shop_grid prods (page : Int)).hasPrev = true ↔
      0 < (min page ((prods.length - 1) / 4)) * 4) ∧
    ((show_shop_grid prods (page : Int)).hasNext = true ↔
      (min page ((prods.length - 1) / 4)) * 4 + 4 < prods.length) ∧
    (kb_cats cats page).items =
      (pySlice (cats.filter (fun c => c.isActive == 1)) (page * 8) 8).map (·.id) ∧
    ((kb_cats cats page).hasPrev = true ↔ 0 < page * 8) ∧
    ((kb_cats cats page).hasNext = true ↔
      page * 8 + 8 < (cats.filter (fun c => c.isActive == 1)).length) := by
  have htot : prods.length ≠ 0 := fun h => hne (List.length_eq_zero.mp h)
  obtain ⟨n, hn⟩ : ∃ n, prods.length = n + 1 :=
    ⟨prods.length - 1, by omega⟩
  have hmp : ((prods.length : Int) - 1) / 4 = ((n / 4 : Nat) : Int) := by
    have h1 : ((prods.length : Int) - 1) = ((n : Nat) : Int) := by omega
    rw [h1]
    exact_mod_cast (Int.ofNat_ediv n 4).symm
  have hclamp :
      (if ((page : Nat) : Int) > ((prods.length : Int) - 1) / 4
        then ((prods.length : Int) - 1) / 4 else ((page : Nat) : Int)) =
      ((min page (n / 4) : Nat) : Int) := by
    rw [hmp]
    split_ifs with h
    · have hgt : n / 4 < page := by exact_mod_cast h
      rw [Nat.min_eq_right (Nat.le_of_lt hgt)]
    · have hle : page ≤ n / 4 := by
        have := not_lt.mp h
        exact_mod_cast this
      rw [Nat.min_eq_left hle]
  have hmpn : (prods.length - 1) / 4 = n / 4 := by omega
  have hgrid :
      show_shop_grid prods (page : Int) =
        { items := (pySlice prods ((min page (n / 4)) * 4) 4).map (·.id)
          hasPrev := decide (((min page (n / 4) : Nat) : Int) > 0)
          hasNext := decide (((min page (n / 4) : Nat) : Int) <
            ((prods.length : Int) - 1) / 4) } := by
    simp only [show_shop_grid]
    rw [if_neg htot]
    have hneg : ¬ ((page : Nat) : Int) < 0 := by omega
    rw [if_neg hneg, hclamp]
    have htn : (((min page (n / 4) : Nat) : Int) * (4 : Int)).toNat =
        (min page (n / 4)) * 4 := by
      have h4 : (((min page (n / 4) : Nat) : Int) * (4 : Int)) =
          (((min page (n / 4) * 4 : Nat)) : Int) := by push_cast; ring
      rw [h4, Int.toNat_natCast]
    rw [htn]
  have hspec : specPaginate prods page 4 =
      pySlice prods ((min page (n / 4)) * 4) 4 := by
    simp only [specPaginate, pySlice]
    rw [hn]
    rw [if_neg (by omega : ¬ (n + 1 = 0))]
    have h2 : (n + 1 + 4 - 1) / 4 - 1 = n / 4 := by
      have h3 : n + 1 + 4 - 1 = n + 4 := by omega
      rw [h3, Nat.add_div_right n (by norm_num)]
      omega
    rw [h2]
  refine ⟨?_, ?_, ?_, rfl, ?_, ?_⟩
  · rw [hgrid, hspec]
  · rw [hgrid]
    simp only [decide_eq_true_eq]
    constructor
    · intro h; have : 0 < min page (n / 4) := by exact_mod_cast h
      omega
    · intro h; have : 0 < min page (n / 4) := by omega
      exact_mod_cast this
  · rw [hgrid, hmp]
    simp only [decide_eq_true_eq]
    have hdiviff : min page (n / 4) < n / 4 ↔ (min page (n / 4) + 1) * 4 ≤ n := by
      rw [Nat.lt_iff_add_one_le, Nat.le_div_iff_mul_le (by norm_num)]
    constructor
    · intro h
      have h1 : min page (n / 4) < n / 4 := by exact_mod_cast h
      have := hdiviff.mp h1
      omega
    · intro h
      have h1 : (min page (n / 4) + 1) * 4 ≤ n := by omega
      have := hdiviff.mpr h1
      exact_mod_cast this
  · simp [kb_cats]
  · simp [kb_cats]

def prods9 : List Product :=
  [⟨1, none, "p1", none, 0, 0, 1, "t"⟩, ⟨2, none, "p2", none, 0, 0, 1, "t"⟩,
   ⟨3, none, "p3", none, 0, 0, 1, "t"⟩, ⟨4, none, "p4", none, 0, 0, 1, "t"⟩,
   ⟨5, none, "p5", none, 0, 0, 1, "t"⟩, ⟨6, none, "p6", none, 0, 0, 1, "t"⟩,
   ⟨7, none, "p7", none, 0, 0, 1, "t"⟩, ⟨8, none, "p8", none, 0, 0, 1, "t"⟩,
   ⟨9, none, "p9", none, 0, 0, 1, "t"⟩]

/-- Witness for C4 (amended): the claim's own boundary case — 9
products, size 4, requested page 5 — clamps to page 2 and shows item
9 (index 8) with a previous and no next control. -/
theorem pagination_semantics_witness :
    prods9 ≠ [] ∧
    ((show_shop_grid prods9 (5 : Int)).items =
      (specPaginate prods9 5 4).map (·.id) ∧
     (show_shop_grid prods9 (5 : Int)).items = [9] ∧
     (show_shop_grid prods9 (5 : Int)).hasPrev = true ∧
     (show_shop_grid prods9 (5 : Int)).hasNext = false) :=
  ⟨by decide,
   (pagination_semantics prods9 cats9 5 (by decide)).1, rfl, rfl, rfl⟩

/-! ## C3 -/

def exDb3 : DB :=
  ⟨[⟨1, "A", 1⟩], [⟨10, some 1, "P", none, 0, 0, 1, "t"⟩], [⟨10, 1⟩],
   [⟨5, 10, "v", 2⟩], []⟩

/-- C3 counterexample: with `PRAGMA foreign_keys=ON`, the schema's `ON
DELETE CASCADE` on `products.category_id` means the category-delete
confirmation ALSO deletes product 10, whose `category_id` column
references category 1 — contradicting the claim that no product row is
deleted. -/
theorem cat_delete_deletes_product_cex :
    (adm_cat_delete_ok exDb3 1).products = [] ∧ exDb3.products ≠ [] :=
  ⟨rfl, by decide⟩

/-- C3 (amended): the confirmation removes the category row and its
membership rows, and additionally — through the schema's `ON DELETE
CASCADE` on `products.category_id` — every product whose `category_id`
column equals the deleted category, together with that product's
memberships, variants and photos; products that do not reference the
category through `category_id` (membership rows only) are never
deleted. -/
theorem cat_delete_effect (db : DB) (cid : Int) :
    (adm_cat_delete_ok db cid).categories =
      db.categories.filter (fun c => c.id != cid) ∧
    (adm_cat_delete_ok db cid).products =
      db.products.filter (fun p => !(p.categoryId == some cid)) ∧
    (adm_cat_delete_ok db cid).productCategories =
      db.productCategories.filter (fun m => m.categoryId != cid &&
        !(db.products.any (fun p =>
          (p.categoryId == some cid) && p.id == m.productId))) ∧
    (adm_cat_delete_ok db cid).productVariants =
      db.productVariants.filter (fun v =>
        !(db.products.any (fun p =>
          (p.categoryId == some cid) && p.id == v.productId))) ∧
    (adm_cat_delete_ok db cid).photos =
      db.photos.filter (fun ph =>
        !(db.products.any (fun p =>
          (p.categoryId == some cid) && p.id == ph.productId))) ∧
    ∀ p ∈ db.products, p.categoryId ≠ some cid →
      p ∈ (adm_cat_delete_ok db cid).products := by
  refine ⟨rfl, rfl, ?_, rfl, rfl, ?_⟩
  · have h1 : (adm_cat_delete_ok db cid).productCategories =
        List.filter (fun m => m.categoryId != cid &&
          !(db.products.any (fun p =>
            (p.categoryId == some cid) && p.id == m.productId)))
          (List.filter (fun m => m.categoryId != cid) db.productCategories) := rfl
    rw [h1, List.filter_filter]
    exact List.filter_congr (fun m _ => bool_and_and_self _ _)
  · intro p hp hne
    have h2 : (adm_cat_delete_ok db cid).products =
        List.filter (fun p => !(p.categoryId == some cid)) db.products := rfl
    rw [h2, List.mem_filter]
    refine ⟨hp, ?_⟩
    simp [hne]

/-! ## C2 -/

/-- C2: if any statement of the import sequence raises, the
transaction is rolled back: the visible store after the failed
`import_json` call equals its pre-call state in every table — none of
the document's categories, products, memberships, variants or photos
is present. -/
theorem import_json_rollback (now : String) (db : DB) (doc : Doc) (e : String)
    (h : import_json_run now db doc = .error e) :
    import_json now db doc = (db, some e) ∧
    (import_json now db doc).1.categories = db.categories ∧
    (import_json now db doc).1.products = db.products ∧
    (import_json now db doc).1.productCategories = db.productCategories ∧
    (import_json now db doc).1.productVariants = db.productVariants ∧
    (import_json now db doc).1.photos = db.photos := by
  have h1 : import_json now db doc = (db, some e) := by
    unfold import_json
    rw [h]
  rw [h1]
  exact ⟨rfl, rfl, rfl, rfl, rfl, rfl⟩

def emptyDB : DB := ⟨[], [], [], [], []⟩

/-- An import document of five product records whose third violates a
constraint (its `category_id` references no category). -/
def doc5 : Doc :=
  { categories := [⟨some 1, some "A", 1⟩]
    products :=
      [⟨some 1, some 1, some "P1", none, 0, 0, 1, none⟩,
       ⟨some 2, some 1, some "P2", none, 0, 0, 1, none⟩,
       ⟨some 3, some 99, some "P3", none, 0, 0, 1, none⟩,
       ⟨some 4, some 1, some "P4", none, 0, 0, 1, none⟩,
       ⟨some 5, some 1, some "P5", none, 0, 0, 1, none⟩]
    photos := []
    productCategories := []
    productVariants := [] }

/-- Witness for C2: the run on `doc5` raises at record 3 of 5, and the
visible store after the call is the untouched pre-call store. -/
theorem import_json_rollback_witness :
    import_json_run "t" emptyDB doc5 = .error "FOREIGN KEY constraint failed" ∧
    import_json "t" emptyDB doc5 =
      (emptyDB, some "FOREIGN KEY constraint failed") :=
  ⟨rfl,
   (import_json_rollback "t" emptyDB doc5 "FOREIGN KEY constraint failed"
     rfl).1⟩

/-! ## C7 -/

theorem mem_insertSorted {α : Type} (key : α → Int) (a x : α) (l : List α) :
    x ∈ insertSorted key a l ↔ x = a ∨ x ∈ l := by
  induction l with
  | nil => simp [insertSorted]
  | cons b bs ih =>
    simp only [insertSorted]
    split_ifs
    · simp [List.mem_cons]
    · simp only [List.mem_cons, ih]
      tauto

theorem mem_sortByKey {α : Type} (key : α → Int) (x : α) (l : List α) :
    x ∈ sortByKey key l ↔ x ∈ l := by
  induction l with
  | nil => simp [sortByKey]
  | cons b bs ih =>
    simp only [sortByKey, List.foldr_cons] at ih ⊢
    rw [mem_insertSorted, ih, List.mem_cons]

theorem length_insertSorted {α : Type} (key : α → Int) (a : α) (l : List α) :
    (insertSorted key a l).length = l.length + 1 := by
  induction l with
  | nil => rfl
  | cons b bs ih =>
    simp only [insertSorted]
    split_ifs <;> simp [ih]

theorem length_sortByKey {α : Type} (key : α → Int) (l : List α) :
    (sortByKey key l).length = l.length := by
  induction l with
  | nil => rfl
  | cons b bs ih =>
    simp only [sortByKey, List.foldr_cons] at ih ⊢
    rw [length_insertSorted, ih, List.length_cons]

theorem applyAll_id {ρ : Type} (f : DB → ρ → Except String DB) (db : DB)
    (rs : List ρ) (h : ∀ r ∈ rs, f db r = .ok db) :
    applyAll f db rs = .ok db := by
  induction rs with
  | nil => rfl
  | cons r rs ih =>
    simp only [applyAll]
    rw [h r (List.mem_cons_self r rs)]
    exact ih (fun r2 h2 => h r2 (List.mem_cons_of_mem r h2))

theorem applyCat_export_self (db : DB)
    (hnd : (db.categories.map (·.id)).Nodup)
    (c : Category) (hc : c ∈ db.categories) :
    applyCat db ⟨some c.id, some c.name, c.isActive⟩ = .ok db := by
  have hany : db.categories.any (fun x => x.id == c.id) = true :=
    List.any_eq_true.mpr ⟨c, hc, by simp⟩
  simp only [applyCat, hany, if_true]
  have hmap : db.categories.map (fun x =>
      if x.id == c.id then { x with name := c.name, isActive := c.isActive }
      else x) = db.categories := by
    apply map_eq_self_of
    intro x hx
    by_cases hid : x.id = c.id
    · have hxc : x = c := List.inj_on_of_nodup_map hnd hx hc hid
      subst hxc
      simp
    · simp [hid]
  rw [hmap]

/-- The `category_id` foreign key of every stored product holds. -/
theorem catFkOk_of_consistent (db : DB)
    (hfk : ∀ p ∈ db.products, ∀ c, p.categoryId = some c →
      ∃ cc ∈ db.categories, cc.id = c)
    (p : Product) (hp : p ∈ db.products) : catFkOk db p.categoryId = true := by
  cases hcat : p.categoryId with
  | none => rfl
  | some c =>
    obtain ⟨cc, hcc, hid⟩ := hfk p hp c hcat
    simp only [catFkOk]
    exact List.any_eq_true.mpr ⟨cc, hcc, by simp [hid]⟩

theorem applyProd_export_self (now : String) (db : DB)
    (hnd : (db.products.map (·.id)).Nodup)
    (hfk : ∀ p ∈ db.products, ∀ c, p.categoryId = some c →
      ∃ cc ∈ db.categories, cc.id = c)
    (p : Product) (hp : p ∈ db.products) :
    applyProd now db ⟨some p.id, p.categoryId, some p.name, p.description,
      p.price, p.stock, p.isActive, some p.createdAt⟩ = .ok db := by
  have hok := catFkOk_of_consistent db hfk p hp
  have hany : db.products.any (fun x => x.id == p.id) = true :=
    List.any_eq_true.mpr ⟨p, hp, by simp⟩
  simp only [applyProd, hok, Bool.not_true, Bool.false_eq_true, if_false,
    hany, if_true]
  have hmap : db.products.map (fun x =>
      if x.id == p.id then
        { x with categoryId := p.categoryId, name := p.name,
                 description := p.description, price := p.price,
                 stock := p.stock, isActive := p.isActive }
      else x) = db.products := by
    apply map_eq_self_of
    intro x hx
    by_cases hid : x.id = p.id
    · have hxp : x = p := List.inj_on_of_nodup_map hnd hx hp hid
      subst hxp
      simp
    · simp [hid]
  rw [hmap]

theorem applyMem_export_self (db : DB)
    (m : Membership) (hm : m ∈ db.productCategories) :
    applyMem db ⟨some m.productId, some m.categoryId⟩ = .ok db := by
  have hany : db.productCategories.any (fun x =>
      x.productId == m.productId && x.categoryId == m.categoryId) = true :=
    List.any_eq_true.mpr ⟨m, hm, by simp⟩
  simp [applyMem, hany]

theorem applyVar_export_self (db : DB)
    (hnd : (db.productVariants.map (·.id)).Nodup)
    (hvar : ∀ v ∈ db.productVariants, ∃ p ∈ db.products, p.id = v.productId)
    (v : Variant) (hv : v ∈ db.productVariants) :
    applyVar db ⟨some v.id, some v.productId, some v.name, v.stock⟩ = .ok db := by
  have hfk : db.products.any (fun p => p.id == v.productId) = true := by
    obtain ⟨p, hpm, hid⟩ := hvar v hv
    exact List.any_eq_true.mpr ⟨p, hpm, by simp [hid]⟩
  have hany : db.productVariants.any (fun x => x.id == v.id) = true :=
    List.any_eq_true.mpr ⟨v, hv, by simp⟩
  simp only [applyVar, hfk, Bool.not_true, Bool.false_eq_true, if_false,
    hany, if_true]
  have hmap : db.productVariants.map (fun x =>
      if x.id == v.id then
        { x with productId := v.productId, name := v.name, stock := v.stock }
      else x) = db.productVariants := by
    apply map_eq_self_of
    intro x hx
    by_cases hid : x.id = v.id
    · have hxv : x = v := List.inj_on_of_nodup_map hnd hx hv hid
      subst hxv
      simp
    · simp [hid]
  rw [hmap]

theorem applyAll_photos_ok (P : List Product) (rs : List PhotoRec) :
    ∀ (db : DB), db.products = P →
    (∀ r ∈ rs, ∃ pid fid, r = ⟨some pid, some fid⟩ ∧
      P.any (fun p => p.id == pid) = true) →
    ∃ phs, applyAll applyPhoto db rs =
      .ok ⟨db.categories, db.products, db.productCategories,
           db.productVariants, phs⟩ := by
  induction rs with
  | nil =>
    intro db _ _
    exact ⟨db.photos, rfl⟩
  | cons r rs ih =>
    intro db hP hr
    obtain ⟨pid, fid, rfl, hany⟩ := hr r (List.mem_cons_self r rs)
    have hany2 : db.products.any (fun p => p.id == pid) = true := by
      rw [hP]; exact hany
    simp only [applyAll, applyPhoto, hany2, Bool.not_true, Bool.false_eq_true,
      if_false]
    obtain ⟨phs, hph⟩ := ih
      { db with photos := db.photos ++ [⟨nextId (db.photos.map (·.id)), pid, fid⟩] }
      hP (fun r2 h2 => hr r2 (List.mem_cons_of_mem _ h2))
    exact ⟨phs, hph⟩

def exportDoc (db : DB) : Doc := export_json db

/-- C7 counterexample: on a reachable catalog that has a product with a
legacy `category_id` reference but no membership rows (the membership
was removed through the product-categories editor after a legacy
import), `import(export())` synthesizes a membership that was not
present before — the set of product-category memberships changes. -/
theorem round_trip_adds_membership_cex :
    (import_json "t" ⟨[⟨1, "A", 1⟩], [⟨1, some 1, "P", none, 0, 0, 1, "t"⟩],
        [], [], []⟩
      (export_json ⟨[⟨1, "A", 1⟩], [⟨1, some 1, "P", none, 0, 0, 1, "t"⟩],
        [], [], []⟩)).1.productCategories = [⟨1, 1⟩] ∧
    (⟨[⟨1, "A", 1⟩], [⟨1, some 1, "P", none, 0, 0, 1, "t"⟩], [], [],
      []⟩ : DB).productCategories = [] :=
  ⟨rfl, rfl⟩

/-- C7 (amended): on a consistent non-empty catalog,
`import(export())` raises nothing and leaves every category's,
product's and variant's fields, the variant stock counts, and — as
long as the catalog has at least one membership row or no product
carries a legacy `category_id` reference — the set of product-category
memberships unchanged.  (When there are no membership rows but some
product still has a `category_id`, import synthesizes memberships from
those references, see the counterexample; photo rows, which the claim
does not cover, are re-inserted and therefore duplicated.) -/
theorem import_export_round_trip (now : String) (db : DB)
    (hc : FkConsistent db)
    (hne : db.categories ≠ [] ∨ db.products ≠ [])
    (hm : db.productCategories ≠ [] ∨ ∀ p ∈ db.products, p.categoryId = none) :
    ∃ db1, import_json now db (export_json db) = (db1, none) ∧
      db1.categories = db.categories ∧ db1.products = db.products ∧
      db1.productCategories = db.productCategories ∧
      db1.productVariants = db.productVariants := by
  obtain ⟨hndc, hndp, hndv, hfk, hmemc, hvarc, hphc⟩ := hc
  have h1 : applyAll applyCat db (export_json db).categories = .ok db := by
    apply applyAll_id
    intro r hr
    simp only [export_json, List.mem_map] at hr
    obtain ⟨c, hcmem, rfl⟩ := hr
    exact applyCat_export_self db hndc c ((mem_sortByKey _ _ _).mp hcmem)
  have h2 : applyAll (applyProd now) db (export_json db).products = .ok db := by
    apply applyAll_id
    intro r hr
    simp only [export_json, List.mem_map] at hr
    obtain ⟨p, hpmem, rfl⟩ := hr
    exact applyProd_export_self now db hndp hfk p ((mem_sortByKey _ _ _).mp hpmem)
  have h3 : applyAll applyMem db
      (if (export_json db).productCategories.isEmpty then
        synthMems (export_json db).products
      else (export_json db).productCategories) = .ok db := by
    by_cases hempty : db.productCategories = []
    · have he : (export_json db).productCategories.isEmpty = true := by
        simp [export_json, hempty, sortByKey]
      rw [he, if_pos rfl]
      have hnone : ∀ p ∈ db.products, p.categoryId = none := by
        rcases hm with hl | hr2
        · exact absurd hempty hl
        · exact hr2
      have hsyn : synthMems (export_json db).products = [] := by
        simp only [synthMems, export_json]
        rw [List.map_eq_nil_iff, List.filter_eq_nil_iff]
        intro r hr
        simp only [List.mem_map] at hr
        obtain ⟨p, hpmem, rfl⟩ := hr
        simp [hnone p ((mem_sortByKey _ _ _).mp hpmem)]
      rw [hsyn]
      rfl
    · have he : (export_json db).productCategories.isEmpty = false := by
        rw [List.isEmpty_eq_false]
        simp only [export_json]
        rw [Ne, List.map_eq_nil_iff]
        intro hs
        have := length_sortByKey (fun m : Membership => m.productId)
          db.productCategories
        rw [hs] at this
        exact hempty (List.length_eq_zero.mp this.symm)
      rw [he]
      rw [if_neg (by simp)]
      apply applyAll_id
      intro r hr
      simp only [export_json, List.mem_map] at hr
      obtain ⟨m, hmm, rfl⟩ := hr
      exact applyMem_export_self db m ((mem_sortByKey _ _ _).mp hmm)
  have h4 : applyAll applyVar db (export_json db).productVariants = .ok db := by
    apply applyAll_id
    intro r hr
    simp only [export_json, List.mem_map] at hr
    obtain ⟨v, hvmem, rfl⟩ := hr
    exact applyVar_export_self db hndv hvarc v ((mem_sortByKey _ _ _).mp hvmem)
  have h5 : ∃ phs, applyAll applyPhoto db (export_json db).photos =
      .ok ⟨db.categories, db.products, db.productCategories,
           db.productVariants, phs⟩ := by
    apply applyAll_photos_ok db.products (export_json db).photos db rfl
    intro r hr
    simp only [export_json, List.mem_map] at hr
    obtain ⟨q, hq, rfl⟩ := hr
    refine ⟨q.productId, q.fileId, rfl, ?_⟩
    obtain ⟨p, hpmem, hpid⟩ := hphc q ((mem_sortByKey _ _ _).mp hq)
    exact List.any_eq_true.mpr ⟨p, hpmem, by simp [hpid]⟩
  obtain ⟨phs, h5⟩ := h5
  refine ⟨⟨db.categories, db.products, db.productCategories,
    db.productVariants, phs⟩, ?_, rfl, rfl, rfl, rfl⟩
  simp only [import_json, import_json_run, h1, h2, h3, h4, h5]

def wDb : DB :=
  ⟨[⟨1, "A", 1⟩], [⟨1, some 1, "P", some "d", 5, 0, 1, "t"⟩], [⟨1, 1⟩],
   [⟨1, 1, "v", 2⟩], [⟨1, 1, "f"⟩]⟩

/-- Witness for C7 (amended) at a concrete consistent catalog. -/
theorem import_export_round_trip_witness :
    FkConsistent wDb ∧
    (wDb.categories ≠ [] ∨ wDb.products ≠ []) ∧
    (wDb.productCategories ≠ [] ∨ ∀ p ∈ wDb.products, p.categoryId = none) ∧
    ∃ db1, import_json "now" wDb (export_json wDb) = (db1, none) ∧
      db1.categories = wDb.categories ∧ db1.products = wDb.products ∧
      db1.productCategories = wDb.productCategories ∧
      db1.productVariants = wDb.productVariants :=
  ⟨by decide, by decide, by decide,
   import_export_round_trip "now" wDb (by decide) (by decide) (by decide)⟩

end TgCatalog
